import Mathlib

/-!
Verification development for the Ftotnem/Backend repository.

The Go sources are shallowly embedded: Redis and MongoDB state is modelled
as explicit Lean state (functions from keys to optional values, association
lists for document collections), durations and timestamps as integers
(seconds), and floating-point playtime counters as rationals.  Fallible
operations return Except or carry explicit success flags.  External store
calls are modelled as atomic state updates; a value stored under a key that
does not parse as a float is modelled explicitly (RVal.raw), matching the
parse-error branches of the source.
-/

namespace Cluster

/-- One parsed registry entry, from go/shared/cluster/membership.go
(ServiceInfo).  Only the fields the verified properties touch are kept;
`lastSeen` is a timestamp in seconds. -/
structure ServiceInfo where
  id : String
  lastSeen : Int
deriving DecidableEq, Repr

/-- The registry hash for one role: instance id paired with the result of
unmarshalling the stored JSON (`none` models a JSON blob that fails to
parse, the `json.Unmarshal` error branch in the source). -/
def Registry := List (String × Option ServiceInfo)

/-- GetActiveServices (membership.go lines 226-249): read all entries,
skip those that fail to unmarshal, and keep an entry iff
`currentTime.Sub(info.LastSeen) <= sr.config.HeartbeatTTL`. -/
def GetActiveServices (ttl now : Int) (reg : List (String × Option ServiceInfo)) :
    List (String × ServiceInfo) :=
  reg.filterMap fun e =>
    match e.2 with
    | none => none
    | some info => if now - info.lastSeen ≤ ttl then some (e.1, info) else none

/-- The staleness test of cleanupLoop (membership.go lines 195-205): an
entry is marked stale when its JSON fails to unmarshal or when
`currentTime.Sub(info.LastSeen) > sr.config.HeartbeatTTL`. -/
def staleEntry (ttl now : Int) : Option ServiceInfo → Bool
  | none => true
  | some info => decide (now - info.lastSeen > ttl)

/-- One pass of the cleanup loop body (membership.go lines 185-214): collect
the stale ids and HDel them from the registry hash; all other entries are
left as they are. -/
def cleanupPass (ttl now : Int) (reg : List (String × Option ServiceInfo)) :
    List (String × Option ServiceInfo) :=
  reg.filter fun e => !(staleEntry ttl now e.2)

/-- Configuration for NewServiceRegistrar (membership.go ServiceConfig).
`clientNil` models passing a nil redis client.  Durations are in
seconds. -/
structure ServiceConfig where
  clientNil : Bool
  serviceType : String
  serviceID : String
  heartbeatInterval : Int
  heartbeatTTL : Int
  cleanupInterval : Int
deriving DecidableEq, Repr

/-- DefaultHeartbeatInterval of membership.go (5s). -/
def DefaultHeartbeatInterval : Int := 5

/-- DefaultServiceTimeout of membership.go (15s). -/
def DefaultServiceTimeout : Int := 15

/-- DefaultCleanupInterval of membership.go (30s). -/
def DefaultCleanupInterval : Int := 30

/-- NewServiceRegistrar (membership.go lines 77-118): validate the client
and service type, substitute defaults for zero durations, and fail when the
effective HeartbeatTTL is not strictly greater than the effective
HeartbeatInterval.  On success it returns the effective configuration. -/
def NewServiceRegistrar (c : ServiceConfig) : Except String ServiceConfig :=
  if c.clientNil then .error "redis client cannot be nil"
  else if c.serviceType = "" then .error "service type cannot be empty"
  else
    let hb := if c.heartbeatInterval = 0 then DefaultHeartbeatInterval else c.heartbeatInterval
    let ttl := if c.heartbeatTTL = 0 then DefaultServiceTimeout else c.heartbeatTTL
    if ttl ≤ hb then
      .error "HeartbeatTTL must be greater than HeartbeatInterval"
    else
      let cu := if c.cleanupInterval = 0 then DefaultCleanupInterval else c.cleanupInterval
      .ok { c with heartbeatInterval := hb, heartbeatTTL := ttl, cleanupInterval := cu }

/-- The effective heartbeat interval after zero-defaulting. -/
def effHeartbeatInterval (c : ServiceConfig) : Int :=
  if c.heartbeatInterval = 0 then DefaultHeartbeatInterval else c.heartbeatInterval

/-- The effective heartbeat TTL after zero-defaulting. -/
def effHeartbeatTTL (c : ServiceConfig) : Int :=
  if c.heartbeatTTL = 0 then DefaultServiceTimeout else c.heartbeatTTL

/-- Whether an Except result is an error. -/
def isErr {α : Type} : Except String α → Bool
  | .error _ => true
  | .ok _ => false

end Cluster

namespace Game

/-- A raw Redis string value as seen by strconv.ParseFloat: either a valid
float (kept as a rational) or a string that does not parse. -/
inductive RVal where
  | num (q : ℚ)
  | raw (s : String)
deriving DecidableEq, Repr

/-- A durable player document (shared/models Player), restricted to the
fields the game service reads and writes. -/
structure Profile where
  totalPlaytimeTicks : ℚ
  deltaPlaytimeTicks : ℚ
  team : String
deriving DecidableEq, Repr

/-- Pointwise update of a keyed store. -/
def upd {α : Type} (f : String → α) (k : String) (v : α) : String → α :=
  fun x => if x = k then v else f x

/-- The combined store state seen by the game service: the Redis cache
(per-player total, delta, team and online keys, all hash-tagged by uuid,
plus per-team total keys) and the durable MongoDB side (player documents
keyed by uuid, team documents keyed by team id). -/
structure St where
  total : String → Option ℚ
  delta : String → Option RVal
  team : String → Option String
  teamTotal : String → Option ℚ
  online : String → Bool
  durPlayers : List (String × Profile)
  durTeams : String → Option ℚ

/-- The state with no cache keys and empty durable collections. -/
def St.empty : St :=
  { total := fun _ => none
    delta := fun _ => none
    team := fun _ => none
    teamTotal := fun _ => none
    online := fun _ => false
    durPlayers := []
    durTeams := fun _ => none }

/-- Result of IncrementPlayerPlaytime: the state after the call, whether it
returned nil (ok), and which log lines it emitted. -/
structure IncrOut where
  state : St
  ok : Bool
  warnedMissingTeam : Bool
  infoMissingDelta : Bool

/-- IncrementPlayerPlaytime (redisclient, src/unnamed/part_010 lines
213-276): get the player's team key — if absent, log a warning and return
nil without touching any counter; get the delta key — if absent, log and
return nil; if the delta does not parse as a float, return an error; else
execute one pipeline adding the delta to the player's total-playtime key
and to the team's total-playtime key.  The pipeline Exec is modelled as a
single atomic state update applying both increments. -/
def incrementPlayerPlaytime (s : St) (uuid : String) : IncrOut :=
  match s.team uuid with
  | none => ⟨s, true, true, false⟩
  | some teamID =>
    match s.delta uuid with
    | none => ⟨s, true, false, true⟩
    | some (.raw _) => ⟨s, false, false, false⟩
    | some (.num d) =>
      let s2 : St :=
        { s with
          total := upd s.total uuid (some ((s.total uuid).getD 0 + d))
          teamTotal := upd s.teamTotal teamID (some ((s.teamTotal teamID).getD 0 + d)) }
      ⟨s2, true, false, false⟩

/-- NumberOfReplicas of the stathat/consistent library used by the
updater. -/
def numReplicas : Nat := 20

/-- eltKey of stathat/consistent: `strconv.Itoa(idx) + elt`. -/
def eltKey (elt : String) (i : Nat) : String := toString i ++ elt

/-- The virtual points a member list places on the circle, in insertion
order; the hash function (crc32.ChecksumIEEE in the library) is kept as a
parameter. -/
def ringPoints (hash : String → Nat) (members : List String) : List (Nat × String) :=
  members.flatMap fun m => (List.range numReplicas).map fun i => (hash (eltKey m i), m)

/-- The circle map of stathat/consistent: inserting points in order into a
map keyed by hash, a later point overwriting an earlier one with the same
hash. -/
def circleGet (pts : List (Nat × String)) (h : Nat) : Option String :=
  pts.foldl (fun acc p => if p.1 = h then some p.2 else acc) none

/-- updateCircle of stathat/consistent: the distinct hashes of the circle
in ascending order. -/
def sortedHashes (pts : List (Nat × String)) : List Nat :=
  ((pts.map Prod.fst).dedup).insertionSort (· ≤ ·)

/-- Get of stathat/consistent: error ("empty circle", here `none`) on an
empty circle; otherwise hash the key, binary-search the first circle hash
strictly greater than it, wrapping to the first hash, and return that
point's member. -/
def ringGet (hash : String → Nat) (members : List String) (key : String) : Option String :=
  let pts := ringPoints hash members
  match sortedHashes pts with
  | [] => none
  | x :: xs =>
    let hk := hash key
    let target := ((x :: xs).find? fun y => decide (hk < y)).getD x
    circleGet pts target

/-- Result of one performGameTick: the store state afterwards, the uuids
this instance selected as owned, and whether the empty-ring warning was
logged. -/
structure TickOut where
  state : St
  selected : List String
  warnedEmptyRing : Bool

/-- performGameTick (go/game/updater.go lines 145-194): return silently
when no player is online; then compute the capacity estimate
`len(onlineUUIDs)/len(gu.consistentHash.Members())` for the make call
(line 157) — with an empty ring this is an integer division by zero, a
run-time panic, modelled as an error; the explicit empty-ring check with
its warning (lines 162-165) comes only after that line and is therefore
unreachable; otherwise select the online uuids whose ring owner is this
instance and run IncrementPlayerPlaytime on each, logging and continuing
on per-player errors. -/
def performGameTick (hash : String → Nat) (s : St) (onlineUUIDs : List String)
    (members : List String) (myID : String) : Except String TickOut :=
  if onlineUUIDs.isEmpty then .ok ⟨s, [], false⟩
  else if members.isEmpty then .error "runtime error: integer divide by zero"
  else if members.isEmpty then .ok ⟨s, [], true⟩
  else
    let selected := onlineUUIDs.filter fun u => decide (ringGet hash members u = some myID)
    let s2 := selected.foldl (fun st u => (incrementPlayerPlaytime st u).state) s
    .ok ⟨s2, selected, false⟩

/-- The outcome of the game service's GetProfile call against the player
data service: a profile, a 404, or any other error. -/
inductive ProfFetch where
  | found (p : Profile)
  | notFound
  | fetchErr

/-- An HTTP handler response, reduced to success or an error status. -/
inductive HResp where
  | ok
  | err (code : Nat)
deriving DecidableEq, Repr

/-- HandleOnline (go/game/handler.go lines 131-228): check whether the
total and delta playtime keys exist; if either is missing, consult the
player data service — on 404 initialize total to 0.0 and delta to 1.0, on
another error answer 500 unchanged, on success load the profile's total
and delta (and its team when non-empty) into the cache; finally set the
online marker and answer 200. -/
def handleOnline (s : St) (uuid : String) (prof : ProfFetch) : St × HResp :=
  let totalExists := (s.total uuid).isSome
  let deltaExists := (s.delta uuid).isSome
  if !totalExists || !deltaExists then
    match prof with
    | .notFound =>
      let s1 := { s with total := upd s.total uuid (some 0) }
      let s2 := { s1 with delta := upd s1.delta uuid (some (.num 1)) }
      ({ s2 with online := upd s2.online uuid true }, .ok)
    | .fetchErr => (s, .err 500)
    | .found p =>
      let s1 := { s with total := upd s.total uuid (some p.totalPlaytimeTicks) }
      let s2 := { s1 with delta := upd s1.delta uuid (some (.num p.deltaPlaytimeTicks)) }
      let s3 := if p.team ≠ "" then { s2 with team := upd s2.team uuid (some p.team) } else s2
      ({ s3 with online := upd s3.online uuid true }, .ok)
  else
    ({ s with online := upd s.online uuid true }, .ok)

/-- UpdateProfilePlaytime on the durable store (player service,
src/unnamed/part_000): `$set total_playtime_ticks` on the document matched
by id; a missing document leaves the collection unchanged (MatchedCount 0,
reported as an error the caller logs). -/
def updateProfilePlaytime (l : List (String × Profile)) (uuid : String) (t : ℚ) :
    List (String × Profile) :=
  l.map fun e => if e.1 = uuid then (e.1, { e.2 with totalPlaytimeTicks := t }) else e

/-- UpdateProfileDeltaPlaytime on the durable store: `$set
delta_playtime_ticks` on the document matched by id. -/
def updateProfileDeltaPlaytime (l : List (String × Profile)) (uuid : String) (d : ℚ) :
    List (String × Profile) :=
  l.map fun e => if e.1 = uuid then (e.1, { e.2 with deltaPlaytimeTicks := d }) else e

/-- HandleOffline (go/game/handler.go lines 233-304): read the cached total
and delta via GetPlayerPlaytimeAndDelta, whose two GETs run in one pipeline
— in go-redis v9 `pipe.Exec` returns the first command's error including
`redis.Nil` for a missing key, so an absent total or delta key (like a
non-numeric delta) makes the handler answer 500 with no state change (the
post-Exec `err == redis.Nil` fallbacks to 0 in the source are dead under
these semantics); with both values in hand, when at least one is positive
push them as absolute overwrites into the durable player document (each
write best-effort: `wTotFail`/`wDeltaFail` model those calls failing,
which is only logged); then delete the player's online, total, delta and
team keys (RemovePlayerSessionData), delete the online key again
(SetOfflineStatus) and answer 200. -/
def handleOffline (s : St) (uuid : String) (wTotFail wDeltaFail : Bool) : St × HResp :=
  match s.total uuid, s.delta uuid with
  | none, _ => (s, .err 500)
  | _, none => (s, .err 500)
  | some _, some (.raw _) => (s, .err 500)
  | some t, some (.num d) =>
    let dur1 :=
      if 0 < t ∨ 0 < d then
        let dA := if wTotFail then s.durPlayers else updateProfilePlaytime s.durPlayers uuid t
        if wDeltaFail then dA else updateProfileDeltaPlaytime dA uuid d
      else s.durPlayers
    let s1 := { s with durPlayers := dur1 }
    let s2 :=
      { s1 with
        online := upd s1.online uuid false
        total := upd s1.total uuid none
        delta := upd s1.delta uuid none
        team := upd s1.team uuid none }
    let s3 := { s2 with online := upd s2.online uuid false }
    (s3, .ok)

/-- The team ids appearing in the durable player collection, in order of
first appearance — the `$group by $team` keys of the aggregation in
SyncTeamTotalsHandler (src/unnamed/part_004). -/
def teamsOf (players : List (String × Profile)) : List String :=
  (players.map fun e => e.2.team).dedup

/-- The `$sum $total_playtime_ticks` of one aggregation group: the sum of
the durable totals of the players assigned to the team. -/
def teamSum (players : List (String × Profile)) (t : String) : ℚ :=
  ((players.filter fun e => e.2.team = t).map fun e => e.2.totalPlaytimeTicks).sum

/-- SyncTeamTotalsHandler (src/unnamed/part_004 lines 39-105): aggregate
the durable player collection by team, upsert each group's sum as the
team's durable total (`$set total_playtime_ticks`, upsert), and return the
team-id to total map of the successfully updated teams. -/
def syncTeamTotalsHandler (s : St) : St × List (String × ℚ) :=
  let groups := (teamsOf s.durPlayers).map fun t => (t, teamSum s.durPlayers t)
  let durTeams2 := groups.foldl (fun f g => upd f g.1 (some g.2)) s.durTeams
  ({ s with durTeams := durTeams2 }, groups)

/-- triggerPlayerServiceSync (src/unnamed/part_006 lines 56-87): call the
player service's sync handler, then SetTeamTotal (a plain overwrite) on
the cache for every returned team. -/
def triggerPlayerServiceSync (s : St) : St :=
  let r := syncTeamTotalsHandler s
  { r.1 with teamTotal := r.2.foldl (fun f g => upd f g.1 (some g.2)) r.1.teamTotal }

/-- The cached total playtime of a player, a missing key reading as 0. -/
def totQ (s : St) (p : String) : ℚ := (s.total p).getD 0

/-- The store-mutating operations the game service can run while a player's
session is open: a tick accrual for some uuid, an online-marker refresh,
the online handler, the offline handler, and a durable-sync cycle. -/
inductive SessionOp where
  | tick (u : String)
  | refreshOnline (u : String)
  | markOnline (u : String) (prof : ProfFetch)
  | markOffline (u : String) (wTotFail wDeltaFail : Bool)
  | durableSync

/-- The state transition of one session operation (per-player errors are
logged by the callers and leave the state as the operation returned it). -/
def applyOp (s : St) : SessionOp → St
  | .tick u => (incrementPlayerPlaytime s u).state
  | .refreshOnline u => { s with online := upd s.online u true }
  | .markOnline u prof => (handleOnline s u prof).1
  | .markOffline u w1 w2 => (handleOffline s u w1 w2).1
  | .durableSync => triggerPlayerServiceSync s

/-- An operation that can occur strictly during player `p`'s session: any
operation except `p`'s own session end. -/
def duringSession (p : String) : SessionOp → Prop
  | .markOffline u _ _ => u ≠ p
  | _ => True

/-- The state of an open session for player `p`: the total and delta keys
exist (HandleOnline installed them at session start) and the delta, when
numeric, is non-negative (HandleOnline sets it to the default 1.0 or to a
durable profile value, and profiles are created with delta 1.0). -/
def SessionInv (p : String) (s : St) : Prop :=
  (s.total p).isSome ∧ (s.delta p).isSome ∧ ∀ d, s.delta p = some (.num d) → 0 ≤ d

/-- Example state for the accrual pipeline: player "p" online in team
"red" with delta 2, total 10; team "red" currently at 100. -/
def exAccrual : St :=
  { St.empty with
    total := fun x => if x = "p" then some 10 else none
    delta := fun x => if x = "p" then some (.num 2) else none
    team := fun x => if x = "p" then some "red" else none
    teamTotal := fun x => if x = "red" then some 100 else none
    online := fun x => x = "p" }

/-- Example state for the missing-key edge cases: player "q" online with a
team but no delta key. -/
def exNoDelta : St :=
  { St.empty with
    team := fun x => if x = "q" then some "blue" else none
    online := fun x => x = "q" }

/-- Example durable collection for the sync cycle: two players of team "T"
with durable totals 10 and 5, and a stale cached and durable team total of
12. -/
def exSyncTwo : St :=
  { St.empty with
    durPlayers := [("p1", ⟨10, 1, "T"⟩), ("p2", ⟨5, 1, "T"⟩)]
    teamTotal := fun x => if x = "T" then some 12 else none
    durTeams := fun x => if x = "T" then some 12 else none }

/-- Degenerate durable state: team "red" has a durable (and cached) total
of 12 but no player documents at all. -/
def exSyncNoPlayers : St :=
  { St.empty with
    teamTotal := fun x => if x = "red" then some 12 else none
    durTeams := fun x => if x = "red" then some 12 else none }

/-- Example session-end state: player "p" has cached total 7 and delta 2,
team "red", and an existing durable document with stale values. -/
def exOffline : St :=
  { St.empty with
    total := fun x => if x = "p" then some 7 else none
    delta := fun x => if x = "p" then some (.num 2) else none
    team := fun x => if x = "p" then some "red" else none
    online := fun x => x = "p"
    durPlayers := [("p", ⟨1, 1, "red"⟩)] }

/-- Session-end state where both playtime keys are present but hold 0,
while the durable document still holds stale values (total 5). -/
def exOfflineZero : St :=
  { St.empty with
    total := fun x => if x = "p" then some 0 else none
    delta := fun x => if x = "p" then some (.num 0) else none
    team := fun x => if x = "p" then some "red" else none
    online := fun x => x = "p"
    durPlayers := [("p", ⟨5, 1, "red"⟩)] }

/-- Mid-session state for the monotonicity property: player "p" with
cached total 3 and delta 1. -/
def exSession : St :=
  { St.empty with
    total := fun x => if x = "p" then some 3 else none
    delta := fun x => if x = "p" then some (.num 1) else none
    team := fun x => if x = "p" then some "red" else none
    online := fun x => x = "p" }

end Game

namespace Cluster

/-- In a list with pairwise-distinct keys (a Redis hash), a key determines
its value. -/
theorem value_eq_of_key_nodup {α β : Type} {l : List (α × β)}
    (h : (l.map Prod.fst).Nodup) {k : α} {x y : β}
    (hx : (k, x) ∈ l) (hy : (k, y) ∈ l) : x = y := by
  induction l with
  | nil => cases hx
  | cons a tl ih =>
    rcases List.mem_cons.mp hx with hx1 | hx2 <;>
      rcases List.mem_cons.mp hy with hy1 | hy2
    · rw [← hx1] at hy1; exact (congrArg Prod.snd hy1).symm
    · exfalso
      have hk : a.1 = k := congrArg Prod.fst hx1.symm
      have : k ∈ tl.map Prod.fst := List.mem_map_of_mem Prod.fst hy2
      rw [List.map_cons, List.nodup_cons] at h
      exact h.1 (hk ▸ this)
    · exfalso
      have hk : a.1 = k := congrArg Prod.fst hy1.symm
      have : k ∈ tl.map Prod.fst := List.mem_map_of_mem Prod.fst hx2
      rw [List.map_cons, List.nodup_cons] at h
      exact h.1 (hk ▸ this)
    · rw [List.map_cons, List.nodup_cons] at h
      exact ih h.2 hx2 hy2

/-- C4: a registry entry appears in GetActiveServices iff its JSON parses
and the read time minus its lastSeen is at most the liveness TTL; the
filter is applied at read time to the registry contents. -/
theorem getActiveServices_included_iff (ttl now : Int)
    (reg : List (String × Option ServiceInfo))
    (hN : (reg.map Prod.fst).Nodup) (id : String) (e : Option ServiceInfo)
    (hmem : (id, e) ∈ reg) :
    (∃ info, (id, info) ∈ GetActiveServices ttl now reg) ↔
      ∃ info, e = some info ∧ now - info.lastSeen ≤ ttl := by
  constructor
  · rintro ⟨info, hin⟩
    rcases List.mem_filterMap.mp hin with ⟨⟨id2, e2⟩, hmem2, hf⟩
    cases e2 with
    | none => exact absurd hf (by simp)
    | some info2 =>
      dsimp only at hf
      by_cases hle : now - info2.lastSeen ≤ ttl
      · rw [if_pos hle] at hf
        have hpair := Option.some.inj hf
        have hid : id2 = id := congrArg Prod.fst hpair
        have hinfo : info2 = info := congrArg Prod.snd hpair
        subst hid
        have he : e = some info2 := value_eq_of_key_nodup hN hmem hmem2
        exact ⟨info2, he, hinfo ▸ hle⟩
      · rw [if_neg hle] at hf; cases hf
  · rintro ⟨info, rfl, hle⟩
    refine ⟨info, List.mem_filterMap.mpr ⟨(id, some info), hmem, ?_⟩⟩
    dsimp only
    rw [if_pos hle]

/-- C4 witness: an instance registered with livenessTTL 15s whose last
heartbeat was 16s before the read time is excluded from the result. -/
theorem getActiveServices_included_iff_witness :
    ¬ ∃ info, ("A", info) ∈ GetActiveServices 15 16 [("A", some ⟨"A", 0⟩)] := by
  intro h
  have h2 := (getActiveServices_included_iff 15 16 [("A", some ⟨"A", 0⟩)]
    (by decide) "A" (some ⟨"A", 0⟩) (by decide)).mp h
  obtain ⟨info, heq, hle⟩ := h2
  cases Option.some.inj heq
  exact absurd hle (by decide)

/-- C5: with a usable client and a non-empty service type,
NewServiceRegistrar fails exactly when the effective (zero-defaulted)
HeartbeatTTL is less than or equal to the effective HeartbeatInterval;
this is the only TTL-relationship check, and it runs only in the
constructor, before any loop is started. -/
theorem newServiceRegistrar_fails_iff_ttl_le (c : ServiceConfig)
    (hc : c.clientNil = false) (ht : c.serviceType ≠ "") :
    isErr (NewServiceRegistrar c) = true ↔
      effHeartbeatTTL c ≤ effHeartbeatInterval c := by
  rw [NewServiceRegistrar, if_neg (by simp [hc]), if_neg ht]
  simp only [effHeartbeatTTL, effHeartbeatInterval]
  by_cases h : (if c.heartbeatTTL = 0 then DefaultServiceTimeout else c.heartbeatTTL) ≤
      (if c.heartbeatInterval = 0 then DefaultHeartbeatInterval else c.heartbeatInterval)
  · rw [if_pos h]
    simpa [isErr] using h
  · rw [if_neg h]
    simpa [isErr] using h

/-- C5 witness: the game service's startup configuration (heartbeat 5s,
TTL 15s) is accepted, and the theorem's characterisation applies to it. -/
theorem newServiceRegistrar_fails_iff_ttl_le_witness :
    isErr (NewServiceRegistrar ⟨false, "game-service", "id1", 5, 15, 30⟩) = false := by
  have h := newServiceRegistrar_fails_iff_ttl_le
    ⟨false, "game-service", "id1", 5, 15, 30⟩ rfl (by decide)
  have h2 : ¬ isErr (NewServiceRegistrar ⟨false, "game-service", "id1", 5, 15, 30⟩) = true :=
    fun hh => absurd (h.mp hh) (by decide)
  exact Bool.not_eq_true _ ▸ h2

/-- C9: one cleanup pass keeps a registry entry iff it is neither stale
(lastSeen older than the TTL at scan time) nor unreadable, every kept
entry being left exactly as it was (the result is a sublist of the
registry). -/
theorem cleanupPass_removes_exactly_stale (ttl now : Int)
    (reg : List (String × Option ServiceInfo)) (id : String)
    (e : Option ServiceInfo) (hmem : (id, e) ∈ reg) :
    ((id, e) ∈ cleanupPass ttl now reg ↔ staleEntry ttl now e = false) ∧
      (cleanupPass ttl now reg).Sublist reg := by
  refine ⟨?_, List.filter_sublist _⟩
  rw [cleanupPass, List.mem_filter]
  constructor
  · rintro ⟨-, hkeep⟩
    simpa using hkeep
  · intro hfresh
    exact ⟨hmem, by simpa using hfresh⟩

/-- C9 witness: with TTL 15s at scan time 20s, a fresh entry (lastSeen
10s) survives the pass that removes a stale and an unreadable one. -/
theorem cleanupPass_removes_exactly_stale_witness :
    ("a", some ⟨"a", 10⟩) ∈
      cleanupPass 15 20 [("a", some ⟨"a", 10⟩), ("b", some ⟨"b", 0⟩), ("c", none)] :=
  (cleanupPass_removes_exactly_stale 15 20
    [("a", some ⟨"a", 10⟩), ("b", some ⟨"b", 0⟩), ("c", none)]
    "a" (some ⟨"a", 10⟩) (by decide)).1.mpr (by decide)

end Cluster


namespace Game

/-- C1: for a player whose team and delta keys are present, one accrual
call reads the configured delta and adds exactly that delta to both the
player's total-playtime counter and the team's total-playtime counter in
the single pipeline state update, touching nothing else. -/
theorem incrementPlayerPlaytime_pipeline (s : St) (uuid teamID : String) (d : ℚ)
    (hT : s.team uuid = some teamID) (hD : s.delta uuid = some (.num d)) :
    (incrementPlayerPlaytime s uuid).ok = true ∧
    (incrementPlayerPlaytime s uuid).state.total uuid =
      some ((s.total uuid).getD 0 + d) ∧
    (incrementPlayerPlaytime s uuid).state.teamTotal teamID =
      some ((s.teamTotal teamID).getD 0 + d) ∧
    (∀ u, u ≠ uuid → (incrementPlayerPlaytime s uuid).state.total u = s.total u) ∧
    (∀ tm, tm ≠ teamID →
      (incrementPlayerPlaytime s uuid).state.teamTotal tm = s.teamTotal tm) ∧
    (incrementPlayerPlaytime s uuid).state.delta = s.delta ∧
    (incrementPlayerPlaytime s uuid).state.team = s.team ∧
    (incrementPlayerPlaytime s uuid).state.online = s.online ∧
    (incrementPlayerPlaytime s uuid).state.durPlayers = s.durPlayers := by
  simp only [incrementPlayerPlaytime, hT, hD]
  refine ⟨trivial, by simp [upd], by simp [upd],
    fun u hu => by simp [upd, hu], fun tm htm => by simp [upd, htm],
    trivial, trivial, trivial, trivial⟩

/-- C1 witness: with total 10, delta 2 and team total 100, one call leaves
the player at 12 and the team at 102. -/
theorem incrementPlayerPlaytime_pipeline_witness :
    (incrementPlayerPlaytime exAccrual "p").state.total "p" = some 12 ∧
    (incrementPlayerPlaytime exAccrual "p").state.teamTotal "red" = some 102 := by
  have h := incrementPlayerPlaytime_pipeline exAccrual "p" "red" 2 (by decide) (by decide)
  refine ⟨?_, ?_⟩
  · rw [h.2.1]; norm_num [exAccrual, St.empty]
  · rw [h.2.2.1]; norm_num [exAccrual, St.empty]

/-- C3: a missing delta key makes the accrual call return success with the
store unchanged (zero accrual), and a missing team key makes it return
success with a warning and the store unchanged (the player's tick is
skipped entirely). -/
theorem incrementPlayerPlaytime_missing_keys (s : St) (uuid : String) :
    (s.delta uuid = none →
      (incrementPlayerPlaytime s uuid).ok = true ∧
      (incrementPlayerPlaytime s uuid).state = s) ∧
    (s.team uuid = none →
      (incrementPlayerPlaytime s uuid).ok = true ∧
      (incrementPlayerPlaytime s uuid).warnedMissingTeam = true ∧
      (incrementPlayerPlaytime s uuid).state = s) := by
  constructor
  · intro hD
    cases hT : s.team uuid with
    | none => simp [incrementPlayerPlaytime, hT]
    | some t => simp [incrementPlayerPlaytime, hT, hD]
  · intro hT
    simp [incrementPlayerPlaytime, hT]

/-- C3 witness: player "q" has a team but no delta key (no accrual, no
error), player "z" has no team key (warning, nothing modified). -/
theorem incrementPlayerPlaytime_missing_keys_witness :
    (incrementPlayerPlaytime exNoDelta "q").state = exNoDelta ∧
    (incrementPlayerPlaytime exNoDelta "z").warnedMissingTeam = true ∧
    (incrementPlayerPlaytime exNoDelta "z").ok = true :=
  ⟨((incrementPlayerPlaytime_missing_keys exNoDelta "q").1 (by decide)).2,
   ((incrementPlayerPlaytime_missing_keys exNoDelta "z").2 (by decide)).2.1,
   ((incrementPlayerPlaytime_missing_keys exNoDelta "z").2 (by decide)).1⟩

/-- C2: with one online player and an empty ring member set,
performGameTick evaluates the make-capacity expression of updater.go
line 157 and panics with an integer division by zero before it can reach
the empty-ring warning of lines 162-165. -/
theorem performGameTick_empty_ring_divide_by_zero :
    performGameTick (fun _ => 0) St.empty ["p"] [] "inst-a" =
      .error "runtime error: integer divide by zero" := rfl

/-- Folding overwrites over an association list leaves keys that do not
occur in the list unchanged. -/
theorem foldl_upd_of_not_mem {α : Type} (l : List (String × α)) (f : String → Option α)
    (k : String) (h : k ∉ l.map Prod.fst) :
    l.foldl (fun g e => upd g e.1 (some e.2)) f k = f k := by
  induction l generalizing f with
  | nil => rfl
  | cons a tl ih =>
    rw [List.map_cons, List.mem_cons] at h
    push_neg at h
    rw [List.foldl_cons, ih _ h.2]
    simp [upd, h.1]

/-- Folding overwrites over an association list with pairwise-distinct
keys maps each listed key to its listed value. -/
theorem foldl_upd_of_mem {α : Type} (l : List (String × α)) (f : String → Option α)
    (k : String) (v : α) (hN : (l.map Prod.fst).Nodup) (hm : (k, v) ∈ l) :
    l.foldl (fun g e => upd g e.1 (some e.2)) f k = some v := by
  induction l generalizing f with
  | nil => cases hm
  | cons a tl ih =>
    rw [List.map_cons, List.nodup_cons] at hN
    rw [List.foldl_cons]
    rcases List.mem_cons.mp hm with h1 | h2
    · subst h1
      have hnot : k ∉ tl.map Prod.fst := by simpa using hN.1
      rw [foldl_upd_of_not_mem tl _ k hnot]
      simp [upd]
    · exact ih _ hN.2 h2

/-- C6 (amended): for every team with at least one document in the durable
player collection, a sync cycle sets that team's durable total to exactly
the sum of its players' durable totals and overwrites the team's cache
entry with exactly that value, whatever the cache held before. -/
theorem durableSync_team_totals (s : St) (t : String)
    (h : t ∈ teamsOf s.durPlayers) :
    (triggerPlayerServiceSync s).durTeams t = some (teamSum s.durPlayers t) ∧
    (triggerPlayerServiceSync s).teamTotal t = some (teamSum s.durPlayers t) := by
  have hN : (((teamsOf s.durPlayers).map fun x => (x, teamSum s.durPlayers x)).map
      Prod.fst).Nodup := by
    rw [List.map_map]
    have hid : (Prod.fst ∘ fun x => (x, teamSum s.durPlayers x)) = id := rfl
    rw [hid, List.map_id, teamsOf]
    exact List.nodup_dedup _
  have hm : (t, teamSum s.durPlayers t) ∈
      (teamsOf s.durPlayers).map fun x => (x, teamSum s.durPlayers x) :=
    List.mem_map_of_mem _ h
  exact ⟨foldl_upd_of_mem _ _ _ _ hN hm, foldl_upd_of_mem _ _ _ _ hN hm⟩

/-- C6 witness: team "T" with durable player totals 10 and 5 ends the cycle
with durable total 15, and the stale cached 12 is overwritten to exactly
15. -/
theorem durableSync_team_totals_witness :
    (triggerPlayerServiceSync exSyncTwo).durTeams "T" = some 15 ∧
    (triggerPlayerServiceSync exSyncTwo).teamTotal "T" = some 15 := by
  have h := durableSync_team_totals exSyncTwo "T" (by decide)
  have hs : teamSum exSyncTwo.durPlayers "T" = 15 := by
    norm_num [teamSum, exSyncTwo, St.empty]
  rw [hs] at h
  exact h

/-- C6 counterexample: a team with no player documents is not recomputed —
its durable total stays at the stale 12 instead of the empty sum the claim
prescribes. -/
theorem durableSync_counterexample :
    ¬ ((triggerPlayerServiceSync exSyncNoPlayers).durTeams "red" =
        some (teamSum exSyncNoPlayers.durPlayers "red")) := by decide

end Game

namespace Game

/-- Every player document other than the updated one is untouched, and the
updated one receives both absolute overwrites. -/
theorem mem_updateProfiles (l : List (String × Profile)) (uuid : String) (t d : ℚ)
    (pr : Profile) (hpr : (uuid, pr) ∈ l) :
    (uuid, { pr with totalPlaytimeTicks := t, deltaPlaytimeTicks := d }) ∈
      updateProfileDeltaPlaytime (updateProfilePlaytime l uuid t) uuid d := by
  have h1 : (uuid, { pr with totalPlaytimeTicks := t }) ∈ updateProfilePlaytime l uuid t := by
    have h0 := List.mem_map_of_mem
      (fun e : String × Profile =>
        if e.1 = uuid then (e.1, { e.2 with totalPlaytimeTicks := t }) else e) hpr
    simpa [updateProfilePlaytime] using h0
  have h2 := List.mem_map_of_mem
    (fun e : String × Profile =>
      if e.1 = uuid then (e.1, { e.2 with deltaPlaytimeTicks := d }) else e) h1
  simpa [updateProfileDeltaPlaytime] using h2

/-- C7 (amended): when both cached playtime keys are present and numeric,
the offline handler reads them, pushes both as absolute overwrites into
the existing durable player document when at least one of them is
positive, then deletes all four session keys and answers 200 — the
clearing happening regardless of whether the durable writes fail; when
either key is absent, the pipeline read fails with the missing-key error
and the handler answers 500 without touching anything. -/
theorem handleOffline_flush_and_clear (s : St) (uuid : String)
    (wTotFail wDeltaFail : Bool) :
    ((s.total uuid = none ∨ s.delta uuid = none) →
      handleOffline s uuid wTotFail wDeltaFail = (s, .err 500)) ∧
    (∀ t d : ℚ, s.total uuid = some t → s.delta uuid = some (.num d) →
      0 < t ∨ 0 < d →
      (handleOffline s uuid wTotFail wDeltaFail).2 = .ok ∧
      (handleOffline s uuid wTotFail wDeltaFail).1.online uuid = false ∧
      (handleOffline s uuid wTotFail wDeltaFail).1.total uuid = none ∧
      (handleOffline s uuid wTotFail wDeltaFail).1.delta uuid = none ∧
      (handleOffline s uuid wTotFail wDeltaFail).1.team uuid = none ∧
      (wTotFail = false → wDeltaFail = false →
        ∀ pr : Profile, (uuid, pr) ∈ s.durPlayers →
          (uuid, { pr with
                   totalPlaytimeTicks := t
                   deltaPlaytimeTicks := d }) ∈
            (handleOffline s uuid wTotFail wDeltaFail).1.durPlayers)) := by
  constructor
  · rintro (h | h)
    · simp [handleOffline, h]
    · cases hT : s.total uuid with
      | none => simp [handleOffline, hT]
      | some t => simp [handleOffline, hT, h]
  · intro t d hT hD hpos
    simp only [handleOffline, hT, hD]
    refine ⟨trivial, by simp [upd], by simp [upd], by simp [upd], by simp [upd], ?_⟩
    rintro rfl rfl pr hpr
    have hm := mem_updateProfiles s.durPlayers uuid t d pr hpr
    simpa [hpos] using hm

/-- C7 witness: a player with cached total 7, delta 2 and a stale durable
document ends the session with the durable document overwritten to (7, 2),
all session keys gone and a 200 answer; in the empty store, where both
keys are absent, the same handler answers 500 and changes nothing. -/
theorem handleOffline_flush_and_clear_witness :
    (handleOffline exOffline "p" false false).2 = .ok ∧
    (handleOffline exOffline "p" false false).1.online "p" = false ∧
    (handleOffline exOffline "p" false false).1.total "p" = none ∧
    ("p", ({ totalPlaytimeTicks := 7, deltaPlaytimeTicks := 2, team := "red" } : Profile)) ∈
      (handleOffline exOffline "p" false false).1.durPlayers ∧
    handleOffline St.empty "p" false false = (St.empty, .err 500) := by
  have h := (handleOffline_flush_and_clear exOffline "p" false false).2 7 2
    (by decide) (by decide) (Or.inl (by norm_num))
  refine ⟨h.1, h.2.1, h.2.2.1, ?_, ?_⟩
  · exact h.2.2.2.2.2 rfl rfl
      ({ totalPlaytimeTicks := 1, deltaPlaytimeTicks := 1, team := "red" } : Profile)
      (by decide)
  · exact (handleOffline_flush_and_clear St.empty "p" false false).1 (Or.inl rfl)

/-- C7 counterexample: a session end whose cached total and delta are both
present with value 0 succeeds and clears the session keys but skips the
durable push entirely, leaving the durable total at its stale 5 instead of
overwriting it with the cached 0. -/
theorem handleOffline_counterexample :
    exOfflineZero.total "p" = some 0 ∧ exOfflineZero.delta "p" = some (.num 0) ∧
    (handleOffline exOfflineZero "p" false false).2 = .ok ∧
    (handleOffline exOfflineZero "p" false false).1.durPlayers =
      [("p", { totalPlaytimeTicks := 5, deltaPlaytimeTicks := 1, team := "red" })] ∧
    ¬ ("p", ({ totalPlaytimeTicks := 0, deltaPlaytimeTicks := 0, team := "red" } : Profile)) ∈
      (handleOffline exOfflineZero "p" false false).1.durPlayers := by decide

/-- C10: a player coming online with no cached playtime keys whose durable
profile lookup answers not-found gets total 0.0 and delta 1.0 installed in
the cache, the online marker set, and a 200 answer. -/
theorem handleOnline_new_player_defaults (s : St) (uuid : String)
    (h1 : s.total uuid = none) (h2 : s.delta uuid = none) :
    (handleOnline s uuid .notFound).2 = .ok ∧
    (handleOnline s uuid .notFound).1.total uuid = some 0 ∧
    (handleOnline s uuid .notFound).1.delta uuid = some (.num 1) ∧
    (handleOnline s uuid .notFound).1.online uuid = true ∧
    (handleOnline s uuid .notFound).1.team = s.team := by
  simp [handleOnline, h1, h2, upd]

/-- C10 witness: a brand-new player in the empty store comes online with
total 0, delta 1 and the online marker set. -/
theorem handleOnline_new_player_defaults_witness :
    (handleOnline St.empty "n" .notFound).1.total "n" = some 0 ∧
    (handleOnline St.empty "n" .notFound).1.delta "n" = some (.num 1) ∧
    (handleOnline St.empty "n" .notFound).1.online "n" = true := by
  have h := handleOnline_new_player_defaults St.empty "n" rfl rfl
  exact ⟨h.2.1, h.2.2.1, h.2.2.2.1⟩

end Game

namespace Game

/-- C8: during an open session of player `p` (total and delta keys present,
numeric delta non-negative, as HandleOnline installs them), no operation
the service can run — a tick for any player, an online-marker refresh, an
online or offline handler call for any player other than `p` going
offline, or a durable-sync cycle — ever lowers `p`'s cached total
playtime, and the open-session state is preserved. -/
theorem sessionOp_total_monotone (p : String) (s : St) (op : SessionOp)
    (hInv : SessionInv p s) (hOp : duringSession p op) :
    totQ s p ≤ totQ (applyOp s op) p ∧ SessionInv p (applyOp s op) := by
  obtain ⟨hTot, hDel, hNN⟩ := hInv
  cases op with
  | tick u =>
    by_cases hup : u = p
    · subst hup
      cases hT : s.team u with
      | none =>
        simp only [applyOp, incrementPlayerPlaytime, hT]
        exact ⟨le_refl _, hTot, hDel, hNN⟩
      | some teamID =>
        cases hD : s.delta u with
        | none =>
          simp only [applyOp, incrementPlayerPlaytime, hT, hD]
          exact ⟨le_refl _, hTot, hDel, hNN⟩
        | some v =>
          cases v with
          | raw str =>
            simp only [applyOp, incrementPlayerPlaytime, hT, hD]
            exact ⟨le_refl _, hTot, hDel, hNN⟩
          | num d =>
            have hd0 : 0 ≤ d := hNN d hD
            simp only [applyOp, incrementPlayerPlaytime, hT, hD]
            refine ⟨?_, by simp [upd], hDel, hNN⟩
            simp only [totQ, upd, if_pos rfl]
            exact le_add_of_nonneg_right hd0
    · have hpu : p ≠ u := fun he => hup he.symm
      have hframe : (incrementPlayerPlaytime s u).state.total p = s.total p ∧
          (incrementPlayerPlaytime s u).state.delta p = s.delta p := by
        cases hT : s.team u with
        | none => simp [incrementPlayerPlaytime, hT]
        | some teamID =>
          cases hD : s.delta u with
          | none => simp [incrementPlayerPlaytime, hT, hD]
          | some v =>
            cases v with
            | raw str => simp [incrementPlayerPlaytime, hT, hD]
            | num d => simp [incrementPlayerPlaytime, hT, hD, upd, hpu]
      refine ⟨?_, ?_, ?_, ?_⟩
      · simp only [applyOp, totQ, hframe.1]
        exact le_refl _
      · show ((applyOp s (.tick u)).total p).isSome
        simp only [applyOp, hframe.1]
        exact hTot
      · show ((applyOp s (.tick u)).delta p).isSome
        simp only [applyOp, hframe.2]
        exact hDel
      · intro d2 h2
        exact hNN d2 (by simpa only [applyOp, hframe.2] using h2)
  | refreshOnline u =>
    exact ⟨le_refl _, hTot, hDel, hNN⟩
  | markOnline u prof =>
    by_cases hup : u = p
    · subst hup
      have hcond : (!(s.total u).isSome || !(s.delta u).isSome) = false := by
        simp [hTot, hDel]
      simp only [applyOp, handleOnline, hcond, Bool.false_eq_true, if_false]
      exact ⟨le_refl _, hTot, hDel, hNN⟩
    · have hpu : p ≠ u := fun he => hup he.symm
      have hframe : ((handleOnline s u prof).1.total p = s.total p ∧
          (handleOnline s u prof).1.delta p = s.delta p) := by
        simp only [handleOnline]
        split
        · cases prof with
          | notFound => simp [upd, hpu]
          | fetchErr => exact ⟨rfl, rfl⟩
          | found pr0 =>
            by_cases hteam : pr0.team ≠ "" <;> simp [hteam, upd, hpu]
        · exact ⟨rfl, rfl⟩
      refine ⟨?_, ?_, ?_, ?_⟩
      · simp only [applyOp, totQ, hframe.1]
        exact le_refl _
      · show ((applyOp s (.markOnline u prof)).total p).isSome
        simp only [applyOp, hframe.1]
        exact hTot
      · show ((applyOp s (.markOnline u prof)).delta p).isSome
        simp only [applyOp, hframe.2]
        exact hDel
      · intro d2 h2
        exact hNN d2 (by simpa only [applyOp, hframe.2] using h2)
  | markOffline u w1 w2 =>
    have hpu : p ≠ u := fun he => hOp he.symm
    have hframe : ((handleOffline s u w1 w2).1.total p = s.total p ∧
        (handleOffline s u w1 w2).1.delta p = s.delta p) := by
      cases hTu : s.total u with
      | none => simp [handleOffline, hTu]
      | some t0 =>
        cases hD : s.delta u with
        | none => simp [handleOffline, hTu, hD]
        | some v =>
          cases v with
          | raw str => simp [handleOffline, hTu, hD]
          | num q => simp [handleOffline, hTu, hD, upd, hpu]
    refine ⟨?_, ?_, ?_, ?_⟩
    · simp only [applyOp, totQ, hframe.1]
      exact le_refl _
    · show ((applyOp s (.markOffline u w1 w2)).total p).isSome
      simp only [applyOp, hframe.1]
      exact hTot
    · show ((applyOp s (.markOffline u w1 w2)).delta p).isSome
      simp only [applyOp, hframe.2]
      exact hDel
    · intro d2 h2
      exact hNN d2 (by simpa only [applyOp, hframe.2] using h2)
  | durableSync =>
    exact ⟨le_refl _, hTot, hDel, hNN⟩

/-- C8 witness: a tick for player "p" in an open session with total 3 and
delta 1 does not lower the total and keeps the session invariant. -/
theorem sessionOp_total_monotone_witness :
    totQ exSession "p" ≤ totQ (applyOp exSession (.tick "p")) "p" ∧
    SessionInv "p" (applyOp exSession (.tick "p")) :=
  sessionOp_total_monotone "p" exSession (.tick "p")
    ⟨by decide, by decide, fun d hd => by
      have hd2 : some (RVal.num 1) = some (RVal.num d) := hd
      cases hd2
      exact zero_le_one⟩
    trivial

end Game

namespace Game

/-- Characterisation of the circle-map fold: either no point carries the
hash and the accumulator is returned, or the result is a point of the
list carrying the hash. -/
theorem circle_foldl_spec (h : Nat) (pts : List (Nat × String)) (init : Option String) :
    (pts.foldl (fun acc p => if p.1 = h then some p.2 else acc) init = init ∧
      ∀ m, (h, m) ∉ pts) ∨
    (∃ m, pts.foldl (fun acc p => if p.1 = h then some p.2 else acc) init = some m ∧
      (h, m) ∈ pts) := by
  induction pts generalizing init with
  | nil => exact Or.inl ⟨rfl, by simp⟩
  | cons a tl ih =>
    rw [List.foldl_cons]
    by_cases ha : a.1 = h
    · rw [if_pos ha]
      rcases ih (some a.2) with ⟨heq, -⟩ | ⟨m, heq, hm⟩
      · refine Or.inr ⟨a.2, heq, List.mem_cons.mpr (Or.inl ?_)⟩
        rw [← ha]
      · exact Or.inr ⟨m, heq, List.mem_cons.mpr (Or.inr hm)⟩
    · rw [if_neg ha]
      rcases ih init with ⟨heq, hnone⟩ | ⟨m, heq, hm⟩
      · refine Or.inl ⟨heq, fun m hmem => ?_⟩
        rcases List.mem_cons.mp hmem with h1 | h2
        · exact ha (congrArg Prod.fst h1.symm)
        · exact hnone m h2
      · exact Or.inr ⟨m, heq, List.mem_cons.mpr (Or.inr hm)⟩

/-- A hash that occurs among the circle's points resolves to a member that
placed a point there. -/
theorem circleGet_mem (pts : List (Nat × String)) (h : Nat)
    (hh : h ∈ pts.map Prod.fst) :
    ∃ m, circleGet pts h = some m ∧ (h, m) ∈ pts := by
  rcases circle_foldl_spec h pts none with ⟨-, hnone⟩ | hsome
  · exfalso
    rcases List.mem_map.mp hh with ⟨pr, hpr, hfst⟩
    have hpair : (pr.1, pr.2) = pr := rfl
    rw [hfst] at hpair
    exact hnone pr.2 (hpair ▸ hpr)
  · exact hsome

/-- The sorted hash list contains exactly the hashes of the circle's
points. -/
theorem mem_sortedHashes (pts : List (Nat × String)) (x : Nat) :
    x ∈ sortedHashes pts ↔ x ∈ pts.map Prod.fst := by
  rw [sortedHashes, (List.perm_insertionSort _ _).mem_iff, List.mem_dedup]

/-- A non-empty point list yields a non-empty sorted hash list. -/
theorem sortedHashes_ne_nil (pts : List (Nat × String)) (hp : pts ≠ []) :
    sortedHashes pts ≠ [] := by
  intro h0
  rw [sortedHashes] at h0
  have hperm := List.perm_insertionSort (α := Nat) (· ≤ ·) ((pts.map Prod.fst).dedup)
  rw [h0] at hperm
  have hd : (pts.map Prod.fst).dedup = [] := hperm.symm.eq_nil
  rw [List.dedup_eq_nil] at hd
  exact hp (List.map_eq_nil_iff.mp hd)

/-- A non-empty member list places at least one point on the circle. -/
theorem ringPoints_ne_nil (hash : String → Nat) (members : List String)
    (hM : members ≠ []) : ringPoints hash members ≠ [] := by
  cases members with
  | nil => exact absurd rfl hM
  | cons m tl =>
    intro h0
    have hmem : (hash (eltKey m 0), m) ∈ ringPoints hash (m :: tl) :=
      List.mem_flatMap.mpr ⟨m, List.mem_cons_self m tl,
        List.mem_map.mpr ⟨0, List.mem_range.mpr (by norm_num [numReplicas]), rfl⟩⟩
    rw [h0] at hmem
    cases hmem

/-- Every circle point belongs to a member of the ring. -/
theorem mem_of_ringPoints (hash : String → Nat) (members : List String)
    (h : Nat) (m : String) (hm : (h, m) ∈ ringPoints hash members) :
    m ∈ members := by
  rcases List.mem_flatMap.mp hm with ⟨x, hx, hmem⟩
  rcases List.mem_map.mp hmem with ⟨i, -, heq⟩
  have : x = m := congrArg Prod.snd heq
  exact this ▸ hx

/-- Ring determinism and totality: on a non-empty member list, Get returns
a member, a pure function of the member list and the key. -/
theorem ringGet_mem (hash : String → Nat) (members : List String) (key : String)
    (hM : members ≠ []) :
    ∃ owner, ringGet hash members key = some owner ∧ owner ∈ members := by
  have hp := ringPoints_ne_nil hash members hM
  cases hS : sortedHashes (ringPoints hash members) with
  | nil => exact absurd hS (sortedHashes_ne_nil _ hp)
  | cons x xs =>
    have htarget : (((x :: xs).find? fun y => decide (hash key < y)).getD x) ∈ x :: xs := by
      cases hF : (x :: xs).find? fun y => decide (hash key < y) with
      | none => exact List.mem_cons_self x xs
      | some y =>
        simp only [Option.getD_some]
        exact List.mem_of_find?_eq_some hF
    rw [← hS] at htarget
    obtain ⟨m, hget, hmem⟩ :=
      circleGet_mem _ _ ((mem_sortedHashes _ _).mp htarget)
    refine ⟨m, ?_, mem_of_ringPoints _ _ _ _ hmem⟩
    rw [hS] at hget
    simp only [ringGet, hS]
    exact hget

/-- performGameTick selects a uuid for this instance iff the uuid is online
and this instance is its ring owner (given a non-empty ring, so that the
capacity computation does not panic). -/
theorem performGameTick_selected_iff (hash : String → Nat) (s : St)
    (online members : List String) (myID uuid : String) (hM : members ≠ []) :
    (∃ out, performGameTick hash s online members myID = .ok out ∧
      uuid ∈ out.selected) ↔
    uuid ∈ online ∧ ringGet hash members uuid = some myID := by
  have hMe : members.isEmpty = false := by
    cases members with
    | nil => exact absurd rfl hM
    | cons a b => rfl
  by_cases hO : online.isEmpty
  · rw [List.isEmpty_iff] at hO
    subst hO
    simp [performGameTick]
  · have hOe : online.isEmpty = false := Bool.eq_false_iff.mpr hO
    simp only [performGameTick, hOe, hMe, Bool.false_eq_true, if_false]
    constructor
    · rintro ⟨out, hout, hsel⟩
      injection hout with h1
      subst h1
      have := List.mem_filter.mp hsel
      exact ⟨this.1, of_decide_eq_true this.2⟩
    · rintro ⟨hmem, hring⟩
      exact ⟨_, rfl, List.mem_filter.mpr ⟨hmem, by simp [hring]⟩⟩

/-- Partition coverage on a shared ring: with a non-empty, duplicate-free
member list, every key has exactly one member computing itself as its
owner. -/
theorem ringGet_unique_owner (hash : String → Nat) (members : List String)
    (uuid : String) (hM : members ≠ []) (hN : members.Nodup) :
    ∃ owner, ringGet hash members uuid = some owner ∧ owner ∈ members ∧
      (members.countP fun i => decide (ringGet hash members uuid = some i)) = 1 := by
  obtain ⟨owner, hOwn, hMem⟩ := ringGet_mem hash members uuid hM
  refine ⟨owner, hOwn, hMem, ?_⟩
  have hcong : ∀ i ∈ members,
      (decide (ringGet hash members uuid = some i) = true) ↔ ((i == owner) = true) := by
    intro i _
    rw [decide_eq_true_eq, beq_iff_eq]
    constructor
    · intro h2
      exact (Option.some.inj (hOwn.symm.trans h2)).symm
    · rintro rfl
      exact hOwn
  rw [List.countP_congr hcong]
  exact List.count_eq_one_of_mem hN hMem

/-- The source's empty-ring warning can never be emitted: a tick that
returns at all returns with the warning flag clear, because the
combination that should warn (players online, ring empty) panics first. -/
theorem performGameTick_warning_unreachable (hash : String → Nat) (s : St)
    (online members : List String) (myID : String) (out : TickOut)
    (h : performGameTick hash s online members myID = .ok out) :
    out.warnedEmptyRing = false := by
  by_cases hO : online.isEmpty
  · simp only [performGameTick, hO, if_pos] at h
    injection h with h1
    rw [← h1]
  · have hOe : online.isEmpty = false := Bool.eq_false_iff.mpr hO
    by_cases hMe : members.isEmpty
    · simp only [performGameTick, hOe, hMe, Bool.false_eq_true, if_false, if_pos] at h
      cases h
    · have hMf : members.isEmpty = false := Bool.eq_false_iff.mpr hMe
      simp only [performGameTick, hOe, hMf, Bool.false_eq_true, if_false] at h
      injection h with h1
      rw [← h1]

end Game
